import Mathlib

/-!
Shallow embedding of `scripts/resume_ingestion_pinecone.py`: a resumable,
fault-tolerant streaming ingestion pipeline that reads movie records,
batches them, embeds each batch with per-item retry/backoff, upserts the
batch to a vector index, checkpoints after each committed batch, and logs
permanently failed records to a side file.

Strings from the Python source are modelled as `List Char` (`Chars`) so
that slicing `s[:n]` becomes `List.take n`.  Record identifiers are
modelled as `String` (the source coerces them with `str(...)` before every
comparison or store).  External effects are modelled by explicit oracles:
the embedding service is an oracle `Nat → AttemptResult` per record
(attempt number ↦ outcome), and the upsert sink is an oracle
`Nat → Bool` (batch index ↦ commit success).
-/

namespace ResumeIngestion

/-- Characters of a Python string. -/
abbrev Chars := List Char

/-- Constant `BATCH_SIZE = 100` from the source (defined twice, both times 100). -/
def BATCH_SIZE : Nat := 100

/-- Constant `MAX_WORKERS = 15` from the source. -/
def MAX_WORKERS : Nat := 15

/-- One element of a record's `genres` list: either a JSON dict (whose
`name` may be absent) or some non-dict value, which the source filters out
with `isinstance(g, dict)`. -/
inductive GenreItem where
  | dict (name : Option Chars)
  | other
  deriving DecidableEq

/-- The raw `genres` field of a record: a list, or a raw scalar whose
`str(...)` rendering is `s`. -/
inductive GenresField where
  | ofList (items : List GenreItem)
  | scalar (s : Chars)
  deriving DecidableEq

/-- One source record (a movie). `none` models an absent key, read in the
source with `movie.get(key, default)`. The identifier is kept as the
`str(...)`-coerced string the source always compares and stores. -/
structure Movie where
  id : String
  title : Option Chars
  overview : Option Chars
  genres : Option GenresField
  release_date : Option Chars
  poster_path : Option Chars
  vote_average : Option ℚ
  popularity : Option ℚ
  deriving DecidableEq

/-- Separator `", "` used between genre names in `", ".join(...)`. -/
def commaSep : Chars := [',', ' ']

/-- Default title `"Unknown"` used by `movie.get("title", "Unknown")`. -/
def unknownTitle : Chars := ['U', 'n', 'k', 'n', 'o', 'w', 'n']

/-- Rendering `str(g.get("name", ""))` of one genre item kept by the dict filter;
`none` for a filtered-out non-dict item. -/
def genreName : GenreItem → Option Chars
  | .dict name => some (name.getD [])
  | .other => none

/-- The genre-normalisation block of `process_batch`:
`", ".join([str(g.get("name","")) for g in genres_list if isinstance(g, dict)])`
when the field is a list (the `get` default `[]` behaves as the empty
list), `str(genres_list)` otherwise. -/
def genresToText : Option GenresField → Chars
  | none => List.intercalate commaSep []
  | some (.ofList items) => List.intercalate commaSep (items.filterMap genreName)
  | some (.scalar s) => s

-- ------------------------------------------------------------------
-- Checkpoint store (lines 57-69 of the source)
-- ------------------------------------------------------------------

/-- State of the checkpoint file on disk: absent, present but unparsable
JSON, or parsed JSON whose `lastId` key may be missing. -/
inductive CheckpointFile where
  | absent
  | corrupt
  | parsed (lastId : Option String)
  deriving DecidableEq

/-- The checkpoint-loading block: `last_id = None`; if the file exists,
`json.load` it and take `ckpt.get("lastId")`, swallowing any parse error
(`except: pass`), which leaves `last_id = None`. -/
def loadCheckpoint : CheckpointFile → Option String
  | .absent => none
  | .corrupt => none
  | .parsed lastId => lastId

/-- Function `save_checkpoint`: overwrite the checkpoint file with
`{"lastId": str(last_processed_id), "timestamp": ...}` (the timestamp is
not modelled). -/
def save_checkpoint (last_processed_id : String) : CheckpointFile :=
  .parsed (some last_processed_id)

-- ------------------------------------------------------------------
-- Failure log (lines 71-81 of the source)
-- ------------------------------------------------------------------

/-- One failure-log entry `{"id": item_id, "title": title, "error": str(error)}`.
The source passes `movie.get('title')` with no default, hence the `Option`. -/
structure FailEntry where
  id : String
  title : Option Chars
  error : Chars
  deriving DecidableEq

/-- State of the failure-log file on disk.  Corrupt content splits in
two: `unparsable` content makes `json.load` raise (caught by the bare
`except: pass`), while `parsedNonList` is valid JSON that is not an
array, which parses fine but is not a Python list. -/
inductive FailFile where
  | absent
  | unparsable
  | parsedNonList
  | good (entries : List FailEntry)
  deriving DecidableEq

/-- Value of `existing` after the read phase of `log_failure`: a Python
list, or some other parsed JSON value, which has no `.append`. -/
inductive ReadResult where
  | list (entries : List FailEntry)
  | nonList
  deriving DecidableEq

/-- The read phase of `log_failure`: `existing = []`, then if the file
exists try to `json.load` it, swallowing only a raised parse error
(`except: pass`); successfully parsed non-array content replaces
`existing` as is. -/
def readFailFile : FailFile → ReadResult
  | .absent => .list []
  | .unparsable => .list []
  | .parsedNonList => .nonList
  | .good entries => .list entries

/-- Function `log_failure`: read the existing content, then run
`existing.append(entry)` — which sits outside the `try`, so on parsed
non-list content it raises an uncaught AttributeError that aborts the
run, modelled as `none` — and rewrite the whole file.  Returns the new
file contents. -/
def log_failure (file : FailFile) (entry : FailEntry) : Option (List FailEntry) :=
  match readFailFile file with
  | .list entries => some (entries ++ [entry])
  | .nonList => none

-- ------------------------------------------------------------------
-- Batching (the streaming loop, lines 195-224) and resume skip
-- ------------------------------------------------------------------

/-- The `skip_mode` loop body: while skipping, a record whose id equals
`str(last_id)` clears `skip_mode` but is itself `continue`d past; every
record before the match is also skipped.  Returns the records that reach
the batching code.  If the id never occurs, everything is skipped. -/
def skipLoop (lastId : String) : List Movie → List Movie
  | [] => []
  | m :: rest => if m.id = lastId then rest else skipLoop lastId rest

/-- Flag `skip_mode = True if last_id else False`: Python truthiness means
skipping is enabled only for a truthy loaded identifier, so with no
checkpoint or with a falsy (empty-string) one the whole stream is
processed; otherwise `skipLoop` applies. -/
def resumeSkip : Option String → List Movie → List Movie
  | none, stream => stream
  | some lastId, stream =>
    if lastId.isEmpty then stream else skipLoop lastId stream

/-- The records that reach the batch coordinator: the stream after the
checkpoint is loaded and the resume skip applied. -/
def reachedRecords (ckpt : CheckpointFile) (stream : List Movie) : List Movie :=
  resumeSkip (loadCheckpoint ckpt) stream

/-- The batching discipline of the main loop: append each record to
`current_batch`; once `len(current_batch) >= BATCH_SIZE`, flush it and
start a new one; at stream end flush the final partial batch iff it is
nonempty. -/
def buildBatches (current : List Movie) : List Movie → List (List Movie)
  | [] => if current.isEmpty then [] else [current]
  | m :: rest =>
    let cur := current ++ [m]
    if BATCH_SIZE ≤ cur.length then cur :: buildBatches [] rest
    else buildBatches cur rest

theorem buildBatches_cons_flush {current : List Movie} {m : Movie} {rest : List Movie}
    (h : BATCH_SIZE ≤ current.length + 1) :
    buildBatches current (m :: rest) = (current ++ [m]) :: buildBatches [] rest := by
  simp [buildBatches, h]

theorem buildBatches_cons_acc {current : List Movie} {m : Movie} {rest : List Movie}
    (h : ¬ BATCH_SIZE ≤ current.length + 1) :
    buildBatches current (m :: rest) = buildBatches (current ++ [m]) rest := by
  simp [buildBatches, h]

theorem buildBatches_flatten (l : List Movie) :
    ∀ current : List Movie, (buildBatches current l).flatten = current ++ l := by
  induction l with
  | nil =>
    intro current
    by_cases h : current.isEmpty
    · simp [buildBatches, h, List.isEmpty_iff.mp h]
    · simp [buildBatches, h]
  | cons m rest ih =>
    intro current
    by_cases h : BATCH_SIZE ≤ current.length + 1
    · rw [buildBatches_cons_flush h, List.flatten_cons, ih []]
      simp
    · rw [buildBatches_cons_acc h, ih (current ++ [m])]
      simp

theorem mem_dropLast_cons {α : Type _} {b x : α} {xs : List α}
    (h : b ∈ (x :: xs).dropLast) : b = x ∨ b ∈ xs.dropLast := by
  cases xs with
  | nil => simp at h
  | cons y ys =>
    rw [List.dropLast_cons₂] at h
    rcases List.mem_cons.mp h with h | h
    · exact Or.inl h
    · exact Or.inr h

theorem buildBatches_sizes (l : List Movie) :
    ∀ current : List Movie, current.length < BATCH_SIZE →
      (∀ b ∈ (buildBatches current l).dropLast, b.length = BATCH_SIZE) ∧
      (∀ b ∈ buildBatches current l, 0 < b.length ∧ b.length ≤ BATCH_SIZE) := by
  induction l with
  | nil =>
    intro current hlt
    cases current with
    | nil => simp [buildBatches]
    | cons c cs =>
      constructor
      · intro b hb
        simp [buildBatches] at hb
      · intro b hb
        simp only [buildBatches, List.isEmpty_cons, List.mem_singleton,
          Bool.false_eq_true, if_false] at hb
        subst hb
        exact ⟨by simp, le_of_lt hlt⟩
  | cons m rest ih =>
    intro current hlt
    by_cases h : BATCH_SIZE ≤ current.length + 1
    · rw [buildBatches_cons_flush h]
      have hlen : (current ++ [m]).length = BATCH_SIZE := by
        simp only [List.length_append, List.length_singleton]
        omega
      have hrest := ih [] (by simp [BATCH_SIZE])
      constructor
      · intro b hb
        rcases mem_dropLast_cons hb with hcase | hcase
        · exact hcase ▸ hlen
        · exact hrest.1 b hcase
      · intro b hb
        rcases List.mem_cons.mp hb with hb | hb
        · subst hb
          exact ⟨by simp, le_of_eq hlen⟩
        · exact hrest.2 b hb
    · rw [buildBatches_cons_acc h]
      refine ih (current ++ [m]) ?_
      simp only [List.length_append, List.length_singleton]
      omega

-- ------------------------------------------------------------------
-- Embedding worker: `generate_embedding` (lines 103-142)
-- ------------------------------------------------------------------

/-- The metadata dict attached to an upsert unit: all string fields are
truncated with Python slicing, the numeric fields pass through `float()`. -/
structure Metadata where
  title : Chars
  year : Chars
  genres : Chars
  poster_path : Chars
  overview : Chars
  vote_average : ℚ
  popularity : ℚ
  deriving DecidableEq

/-- One upsert dict `{"id": ..., "values": ..., "metadata": ...}` handed to
`index.upsert`. -/
structure UpsertUnit where
  id : String
  values : List ℚ
  metadata : Metadata
  deriving DecidableEq

/-- Outcome of one `genai.embed_content` call: a successful embedding
vector, an exception whose text contains `"429"` (rate limit), or any
other exception. -/
inductive AttemptResult where
  | success (embedding : List ℚ)
  | rateLimitError
  | otherError
  deriving DecidableEq

/-- A work item `(movie, text)` prepared by `process_batch`: the movie
(after its `genres` field has been overwritten with the normalised genre
string) together with the derived text. -/
structure PreparedMovie where
  movie : Movie
  genresStr : Chars
  text : Chars
  deriving DecidableEq

/-- The per-movie preparation in `process_batch`: compute title, overview
and the normalised genre string, overwrite `movie['genres']` with it, and
build `f"Title: {title}. Overview: {overview}. Genres: {genres}"`. -/
def prepareMovie (movie : Movie) : PreparedMovie :=
  let title := movie.title.getD unknownTitle
  let overview := movie.overview.getD []
  let genres := genresToText movie.genres
  { movie := movie
    genresStr := genres
    text := ['T', 'i', 't', 'l', 'e', ':', ' '] ++ title
      ++ ['.', ' ', 'O', 'v', 'e', 'r', 'v', 'i', 'e', 'w', ':', ' '] ++ overview
      ++ ['.', ' ', 'G', 'e', 'n', 'r', 'e', 's', ':', ' '] ++ genres }

/-- The metadata dict built inside `generate_embedding` on a successful
embedding call. `movie['genres']` is the normalised genre string by then,
so `str(movie.get("genres",""))[:1000]` is `genresStr.take 1000`; the year
is `release_date[:4]` when the field is truthy, `""` otherwise;
`poster_path` uses `movie.get("poster_path", "") or ""`. -/
def buildMetadata (pm : PreparedMovie) : Metadata :=
  { title := (pm.movie.title.getD unknownTitle).take 1000
    year := match pm.movie.release_date with
      | some rd => if rd.isEmpty then [] else rd.take 4
      | none => []
    genres := pm.genresStr.take 1000
    poster_path := pm.movie.poster_path.getD []
    overview := (pm.movie.overview.getD []).take 1000
    vote_average := pm.movie.vote_average.getD 0
    popularity := pm.movie.popularity.getD 0 }

/-- What `generate_embedding` did for one movie: the upsert dict (or
`none` after retry exhaustion), the list of `time.sleep` delays in
seconds, in order, and the number of `genai.embed_content` calls made. -/
structure EmbedResult where
  unit : Option UpsertUnit
  sleeps : List ℕ
  attempts : ℕ
  deriving DecidableEq

/-- The `while retries > 0` loop of `generate_embedding`, driven by
`oracle` (call number ↦ outcome).  On success the upsert dict
`{"id": str(movie.get("id")), "values": embedding, "metadata": metadata}`
is returned; on an exception containing `"429"` the worker sleeps
`2 * (4 - retries)` seconds before decrementing `retries`; any other
exception decrements `retries` at once.  Exhaustion yields `none`. -/
def embedLoop (oracle : ℕ → AttemptResult) (pm : PreparedMovie) :
    ℕ → ℕ → EmbedResult
  | _, 0 => { unit := none, sleeps := [], attempts := 0 }
  | attempt, retries + 1 =>
    match oracle attempt with
    | .success embedding =>
      { unit := some { id := pm.movie.id, values := embedding, metadata := buildMetadata pm }
        sleeps := []
        attempts := 1 }
    | .rateLimitError =>
      let rest := embedLoop oracle pm (attempt + 1) retries
      { unit := rest.unit
        sleeps := 2 * (4 - (retries + 1)) :: rest.sleeps
        attempts := rest.attempts + 1 }
    | .otherError =>
      let rest := embedLoop oracle pm (attempt + 1) retries
      { unit := rest.unit
        sleeps := rest.sleeps
        attempts := rest.attempts + 1 }

/-- Function `generate_embedding`: start the retry loop with `retries = 3`. -/
def generate_embedding (oracle : ℕ → AttemptResult) (pm : PreparedMovie) : EmbedResult :=
  embedLoop oracle pm 0 3

-- ------------------------------------------------------------------
-- Batch coordinator: `process_batch` (lines 145-192)
-- ------------------------------------------------------------------

/-- The upsert dict `generate_embedding` produces for one movie under a
per-movie attempt oracle (`none` on retry exhaustion).  `executor.map`
yields results in input order, so the batch result lists below are
order-preserving. -/
def embedOutcome (oracle : Movie → ℕ → AttemptResult) (m : Movie) : Option UpsertUnit :=
  (generate_embedding (oracle m) (prepareMovie m)).unit

/-- The fixed error text passed to `log_failure` on retry exhaustion. -/
def embedFailMsg : Chars :=
  ['E', 'm', 'b', 'e', 'd', 'd', 'i', 'n', 'g', ' ', 'g', 'e', 'n', 'e', 'r',
   'a', 't', 'i', 'o', 'n', ' ', 'f', 'a', 'i', 'l', 'e', 'd', ' ', 'a', 'f',
   't', 'e', 'r', ' ', 'r', 'e', 't', 'r', 'i', 'e', 's']

/-- The entry `log_failure(movie.get('id'), movie.get('title'), ...)`
writes for a movie whose embedding permanently failed. -/
def failEntryFor (m : Movie) : FailEntry :=
  { id := m.id, title := m.title, error := embedFailMsg }

/-- List `vectors_to_upsert`: the successful embeddings of a batch, in input
order. -/
def batchVectors (oracle : Movie → ℕ → AttemptResult) (batch : List Movie) :
    List UpsertUnit :=
  batch.filterMap (embedOutcome oracle)

/-- The failure-log entries a batch generates: one per movie whose
embedding returned `None`, in input order. -/
def batchFailures (oracle : Movie → ℕ → AttemptResult) (batch : List Movie) :
    List FailEntry :=
  batch.filterMap (fun m =>
    match embedOutcome oracle m with
    | some _ => none
    | none => some (failEntryFor m))

/-- Observable outcome of one `process_batch` call. -/
structure BatchResult where
  /-- The list handed to `index_obj.upsert` (`some` iff `vectors_to_upsert`
  is nonempty, in which case the upsert is attempted). -/
  upserted : Option (List UpsertUnit)
  /-- Whether the upsert call succeeded (committed to the index). -/
  committed : Bool
  /-- The identifier passed to `save_checkpoint`, if any. -/
  checkpointSave : Option String
  /-- The `log_failure` entries written, in order. -/
  failures : List FailEntry
  /-- First component of the return value: `len(vectors_to_upsert)`. -/
  succeeded : ℕ
  /-- Second component of the return value: `failed_in_batch`. -/
  failedCount : ℕ
  deriving DecidableEq

/-- Function `process_batch(batch_items, index_obj)` under an embedding oracle and
an upsert outcome `upsertOk` for this batch.  Successful vectors are
collected, each failed movie is logged, and if any vectors exist the
upsert is attempted: on success `save_checkpoint(batch_items[-1].get("id"))`
runs; on failure the exception is caught, printed, and nothing else
happens.  The return value is `(len(vectors_to_upsert), failed_in_batch)`
on every path. -/
def process_batch (oracle : Movie → ℕ → AttemptResult) (upsertOk : Bool)
    (batch_items : List Movie) : BatchResult :=
  let vectors_to_upsert := batchVectors oracle batch_items
  let failures := batchFailures oracle batch_items
  if vectors_to_upsert.isEmpty then
    { upserted := none
      committed := false
      checkpointSave := none
      failures := failures
      succeeded := vectors_to_upsert.length
      failedCount := failures.length }
  else if upsertOk then
    { upserted := some vectors_to_upsert
      committed := true
      checkpointSave := (batch_items.getLast?).map Movie.id
      failures := failures
      succeeded := vectors_to_upsert.length
      failedCount := failures.length }
  else
    { upserted := some vectors_to_upsert
      committed := false
      checkpointSave := none
      failures := failures
      succeeded := vectors_to_upsert.length
      failedCount := failures.length }

-- ------------------------------------------------------------------
-- Run driver: the main streaming loop (lines 195-226)
-- ------------------------------------------------------------------

/-- Observable state accumulated over a run. -/
structure RunState where
  /-- The checkpoint file value (initially the loaded one, overwritten by
  each `save_checkpoint`). -/
  checkpoint : Option String
  /-- Failure-log entries appended during this run, in order. -/
  failLog : List FailEntry
  /-- Upsert batches whose commit succeeded, in order. -/
  committedBatches : List (List UpsertUnit)
  /-- Upsert batches handed to `index_obj.upsert`, committed or not. -/
  attemptedBatches : List (List UpsertUnit)
  /-- Counter `processed_count`: sum of first return components. -/
  processed_count : ℕ
  /-- Counter `failed_count`: sum of second return components. -/
  failed_count : ℕ
  /-- Number of `process_batch` calls made. -/
  batchesFlushed : ℕ
  deriving DecidableEq

/-- Fold one batch result into the run state, mirroring the statements
after each `process_batch` call. -/
def applyBatch (st : RunState) (r : BatchResult) : RunState :=
  { checkpoint :=
      match r.checkpointSave with
      | some cid => some cid
      | none => st.checkpoint
    failLog := st.failLog ++ r.failures
    committedBatches := st.committedBatches ++
      (match r.upserted with
       | some b => if r.committed then [b] else []
       | none => [])
    attemptedBatches := st.attemptedBatches ++ r.upserted.toList
    processed_count := st.processed_count + r.succeeded
    failed_count := st.failed_count + r.failedCount
    batchesFlushed := st.batchesFlushed + 1 }

/-- Process the flushed batches in order; batch `i` gets upsert outcome
`upsertOk i`. -/
def runBatches (oracle : Movie → ℕ → AttemptResult) (upsertOk : ℕ → Bool) :
    ℕ → RunState → List (List Movie) → RunState
  | _, st, [] => st
  | i, st, b :: bs =>
    runBatches oracle upsertOk (i + 1)
      (applyBatch st (process_batch oracle (upsertOk i) b)) bs

/-- The whole run: load the checkpoint, apply the resume skip, batch the
surviving records, and process every batch in order. -/
def runDriver (oracle : Movie → ℕ → AttemptResult) (upsertOk : ℕ → Bool)
    (ckpt : CheckpointFile) (stream : List Movie) : RunState :=
  let last_id := loadCheckpoint ckpt
  runBatches oracle upsertOk 0
    { checkpoint := last_id
      failLog := []
      committedBatches := []
      attemptedBatches := []
      processed_count := 0
      failed_count := 0
      batchesFlushed := 0 }
    (buildBatches [] (resumeSkip last_id stream))

-- ------------------------------------------------------------------
-- Helper lemmas about `process_batch` and `runBatches`
-- ------------------------------------------------------------------

theorem process_batch_failures (oracle : Movie → ℕ → AttemptResult) (u : Bool)
    (b : List Movie) :
    (process_batch oracle u b).failures = batchFailures oracle b := by
  cases h : (batchVectors oracle b).isEmpty <;> cases u <;> simp [process_batch, h]

theorem process_batch_succeeded (oracle : Movie → ℕ → AttemptResult) (u : Bool)
    (b : List Movie) :
    (process_batch oracle u b).succeeded = (batchVectors oracle b).length := by
  cases h : (batchVectors oracle b).isEmpty <;> cases u <;> simp [process_batch, h]

theorem process_batch_failedCount (oracle : Movie → ℕ → AttemptResult) (u : Bool)
    (b : List Movie) :
    (process_batch oracle u b).failedCount = (batchFailures oracle b).length := by
  cases h : (batchVectors oracle b).isEmpty <;> cases u <;> simp [process_batch, h]

theorem process_batch_committed_iff (oracle : Movie → ℕ → AttemptResult) (u : Bool)
    (b : List Movie) :
    (process_batch oracle u b).committed = true ↔
      u = true ∧ (batchVectors oracle b).isEmpty = false := by
  cases h : (batchVectors oracle b).isEmpty <;> cases u <;> simp [process_batch, h]

theorem process_batch_save_of_committed (oracle : Movie → ℕ → AttemptResult) (u : Bool)
    (b : List Movie) (h : (process_batch oracle u b).committed = true) :
    (process_batch oracle u b).checkpointSave = (b.getLast?).map Movie.id := by
  obtain ⟨hu, hv⟩ := (process_batch_committed_iff oracle u b).mp h
  subst hu
  simp [process_batch, hv]

theorem process_batch_save_of_not_committed (oracle : Movie → ℕ → AttemptResult) (u : Bool)
    (b : List Movie) (h : (process_batch oracle u b).committed = false) :
    (process_batch oracle u b).checkpointSave = none := by
  cases hv : (batchVectors oracle b).isEmpty <;> cases u <;>
    simp_all [process_batch, hv]

theorem runBatches_batchesFlushed (oracle : Movie → ℕ → AttemptResult)
    (upsertOk : ℕ → Bool) :
    ∀ (bs : List (List Movie)) (i : ℕ) (st : RunState),
      (runBatches oracle upsertOk i st bs).batchesFlushed =
        st.batchesFlushed + bs.length := by
  intro bs
  induction bs with
  | nil => intro i st; simp [runBatches]
  | cons b bs ih =>
    intro i st
    rw [runBatches, ih]
    simp [applyBatch]
    omega

theorem runBatches_failLog (oracle : Movie → ℕ → AttemptResult) (upsertOk : ℕ → Bool) :
    ∀ (bs : List (List Movie)) (i : ℕ) (st : RunState),
      (runBatches oracle upsertOk i st bs).failLog =
        st.failLog ++ (bs.map (batchFailures oracle)).flatten := by
  intro bs
  induction bs with
  | nil => intro i st; simp [runBatches]
  | cons b bs ih =>
    intro i st
    rw [runBatches, ih]
    simp [applyBatch, process_batch_failures, List.append_assoc]

theorem runBatches_processed (oracle : Movie → ℕ → AttemptResult) (upsertOk : ℕ → Bool) :
    ∀ (bs : List (List Movie)) (i : ℕ) (st : RunState),
      (runBatches oracle upsertOk i st bs).processed_count =
        st.processed_count +
          (bs.map (fun b => (batchVectors oracle b).length)).sum := by
  intro bs
  induction bs with
  | nil => intro i st; simp [runBatches]
  | cons b bs ih =>
    intro i st
    rw [runBatches, ih]
    simp [applyBatch, process_batch_succeeded]
    omega

theorem runBatches_committed_allTrue (oracle : Movie → ℕ → AttemptResult) :
    ∀ (bs : List (List Movie)) (i : ℕ) (st : RunState),
      (runBatches oracle (fun _ => true) i st bs).committedBatches =
        st.committedBatches ++ bs.filterMap (fun b =>
          if (batchVectors oracle b).isEmpty then none
          else some (batchVectors oracle b)) := by
  intro bs
  induction bs with
  | nil => intro i st; simp [runBatches]
  | cons b bs ih =>
    intro i st
    rw [runBatches, ih]
    cases h : (batchVectors oracle b).isEmpty
    · have h' : batchVectors oracle b ≠ [] := by simpa using h
      simp [applyBatch, process_batch, h, List.filterMap_cons, List.append_assoc, h']
    · have h' : batchVectors oracle b = [] := by simpa using h
      simp [applyBatch, process_batch, h, List.filterMap_cons, h']

theorem runBatches_committed_allFalse (oracle : Movie → ℕ → AttemptResult) :
    ∀ (bs : List (List Movie)) (i : ℕ) (st : RunState),
      (runBatches oracle (fun _ => false) i st bs).committedBatches =
        st.committedBatches := by
  intro bs
  induction bs with
  | nil => intro i st; simp [runBatches]
  | cons b bs ih =>
    intro i st
    rw [runBatches, ih]
    cases h : (batchVectors oracle b).isEmpty <;>
      simp [applyBatch, process_batch, h]

-- ------------------------------------------------------------------
-- Helper lemmas about the retry loop
-- ------------------------------------------------------------------

theorem embedLoop_attempts_le (oracle : ℕ → AttemptResult) (pm : PreparedMovie) :
    ∀ (retries attempt : ℕ), (embedLoop oracle pm attempt retries).attempts ≤ retries := by
  intro retries
  induction retries with
  | zero => intro attempt; simp [embedLoop]
  | succ r ih =>
    intro attempt
    cases h : oracle attempt with
    | success v => simp [embedLoop, h]
    | rateLimitError =>
      simp only [embedLoop, h]
      exact Nat.succ_le_succ (ih (attempt + 1))
    | otherError =>
      simp only [embedLoop, h]
      exact Nat.succ_le_succ (ih (attempt + 1))

theorem embedLoop_sleeps_mono (oracle : ℕ → AttemptResult) (pm : PreparedMovie) :
    ∀ (retries attempt : ℕ),
      ((embedLoop oracle pm attempt retries).sleeps).Chain' (· ≤ ·) ∧
      ∀ d ∈ (embedLoop oracle pm attempt retries).sleeps, 2 * (4 - retries) ≤ d := by
  intro retries
  induction retries with
  | zero => intro attempt; simp [embedLoop]
  | succ r ih =>
    intro attempt
    have hsub : 2 * (4 - (r + 1)) ≤ 2 * (4 - r) :=
      Nat.mul_le_mul_left 2 (Nat.sub_le_sub_left (Nat.le_succ r) 4)
    cases h : oracle attempt with
    | success v => simp [embedLoop, h]
    | rateLimitError =>
      simp only [embedLoop, h]
      obtain ⟨hchain, hbound⟩ := ih (attempt + 1)
      constructor
      · refine List.chain'_cons'.mpr ⟨?_, hchain⟩
        intro y hy
        exact le_trans hsub (hbound y (List.mem_of_mem_head? hy))
      · intro d hd
        rcases List.mem_cons.mp hd with hd | hd
        · exact le_of_eq hd.symm
        · exact le_trans hsub (hbound d hd)
    | otherError =>
      simp only [embedLoop, h]
      obtain ⟨hchain, hbound⟩ := ih (attempt + 1)
      exact ⟨hchain, fun d hd => le_trans hsub (hbound d hd)⟩

theorem embedLoop_unit_spec (oracle : ℕ → AttemptResult) (pm : PreparedMovie) :
    ∀ (retries attempt : ℕ) (u : UpsertUnit),
      (embedLoop oracle pm attempt retries).unit = some u →
      u.id = pm.movie.id ∧ u.metadata = buildMetadata pm := by
  intro retries
  induction retries with
  | zero => intro attempt u hu; simp [embedLoop] at hu
  | succ r ih =>
    intro attempt u hu
    cases h : oracle attempt with
    | success v =>
      simp only [embedLoop, h] at hu
      obtain rfl := Option.some_injective _ hu.symm
      exact ⟨rfl, rfl⟩
    | rateLimitError =>
      simp only [embedLoop, h] at hu
      exact ih (attempt + 1) u hu
    | otherError =>
      simp only [embedLoop, h] at hu
      exact ih (attempt + 1) u hu

theorem embedOutcome_spec (oracle : Movie → ℕ → AttemptResult) (m : Movie)
    (u : UpsertUnit) (h : embedOutcome oracle m = some u) :
    u.id = m.id ∧ u.metadata = buildMetadata (prepareMovie m) :=
  embedLoop_unit_spec (oracle m) (prepareMovie m) 3 0 u h

-- ------------------------------------------------------------------
-- Concrete records used to instantiate theorems with hypotheses
-- ------------------------------------------------------------------

/-- Sample identifier. -/
def idA : String := "1"

/-- Sample identifier. -/
def idB : String := "2"

/-- Sample identifier. -/
def idC : String := "3"

/-- Sample identifier. -/
def idNine : String := "9"

/-- Sample identifier: the empty string, which is falsy in Python. -/
def emptyId : String := ""

/-- A concrete failure-log entry. -/
def sampleEntry : FailEntry := { id := idA, title := none, error := [] }

/-- A record with the given identifier and every optional field absent. -/
def mkMovie (i : String) : Movie :=
  { id := i, title := none, overview := none, genres := none,
    release_date := none, poster_path := none,
    vote_average := none, popularity := none }

/-- A record whose title, overview and genre string all exceed 1000
characters. -/
def longMovie : Movie :=
  { id := idNine, title := some (List.replicate 1001 'a'),
    overview := some (List.replicate 1001 'b'),
    genres := some (.scalar (List.replicate 1001 'c')),
    release_date := none, poster_path := none,
    vote_average := none, popularity := none }

/-- The upsert unit a successful embedding call produces for `longMovie`
when the service returns the empty vector. -/
def longMovieUnit : UpsertUnit :=
  { id := idNine, values := [], metadata := buildMetadata (prepareMovie longMovie) }

-- ------------------------------------------------------------------
-- Claim theorems
-- ------------------------------------------------------------------

/-- C3: batches are formed in strict input order (their concatenation is
the input stream); every flushed batch except possibly the last has
exactly `BATCH_SIZE = 100` records, and every flushed batch (including
the last) has between 1 and 100 records. -/
theorem batching_sizes_c3 (stream : List Movie) :
    (buildBatches [] stream).flatten = stream ∧
    (∀ b ∈ (buildBatches [] stream).dropLast, b.length = BATCH_SIZE) ∧
    (∀ b ∈ buildBatches [] stream, 0 < b.length ∧ b.length ≤ BATCH_SIZE) := by
  refine ⟨by simpa using buildBatches_flatten stream [], ?_, ?_⟩
  · exact (buildBatches_sizes stream [] (by simp [BATCH_SIZE])).1
  · exact (buildBatches_sizes stream [] (by simp [BATCH_SIZE])).2

theorem batching_sizes_c3_witness :
    (buildBatches [] (List.replicate 101 (mkMovie idA))).flatten =
      List.replicate 101 (mkMovie idA) ∧
    (List.replicate 100 (mkMovie idA)).length = BATCH_SIZE := by
  have h := batching_sizes_c3 (List.replicate 101 (mkMovie idA))
  exact ⟨h.1, h.2.1 (List.replicate 100 (mkMovie idA)) (by decide)⟩

/-- C4: the embedding worker makes at most 3 service calls; the sleeps it
inserts form a non-decreasing sequence; and under permanent rate-limiting
it makes exactly 3 calls, returns a terminal failure, and backs off 2, 4
and 6 seconds. -/
theorem backoff_retry_c4 (oracle : ℕ → AttemptResult) (pm : PreparedMovie) :
    (generate_embedding oracle pm).attempts ≤ 3 ∧
    ((generate_embedding oracle pm).sleeps).Chain' (· ≤ ·) ∧
    ((∀ n, oracle n = .rateLimitError) →
      (generate_embedding oracle pm).unit = none ∧
      (generate_embedding oracle pm).attempts = 3 ∧
      (generate_embedding oracle pm).sleeps = [2, 4, 6]) := by
  refine ⟨embedLoop_attempts_le oracle pm 3 0,
    (embedLoop_sleeps_mono oracle pm 3 0).1, ?_⟩
  intro h
  simp [generate_embedding, embedLoop, h]

theorem backoff_retry_c4_witness :
    (generate_embedding (fun _ => .rateLimitError) (prepareMovie (mkMovie idA))).unit = none ∧
    (generate_embedding (fun _ => .rateLimitError) (prepareMovie (mkMovie idA))).attempts = 3 ∧
    (generate_embedding (fun _ => .rateLimitError) (prepareMovie (mkMovie idA))).sleeps =
      [2, 4, 6] :=
  (backoff_retry_c4 (fun _ => .rateLimitError) (prepareMovie (mkMovie idA))).2.2
    (fun _ => rfl)

/-- C5: in any upsert unit the embedding worker produces, the metadata
overview is the first 1000 characters of a record's over-long overview,
and the same truncation rule holds for the title and the normalised
genre string. -/
theorem metadata_truncation_c5 (oracle : ℕ → AttemptResult) (m : Movie) (u : UpsertUnit)
    (hu : (generate_embedding oracle (prepareMovie m)).unit = some u) :
    (∀ ov, m.overview = some ov → 1000 < ov.length →
      u.metadata.overview = ov.take 1000) ∧
    (∀ t, m.title = some t → 1000 < t.length → u.metadata.title = t.take 1000) ∧
    (1000 < (genresToText m.genres).length →
      u.metadata.genres = (genresToText m.genres).take 1000) := by
  have hm := (embedLoop_unit_spec oracle (prepareMovie m) 3 0 u hu).2
  rw [hm]
  refine ⟨?_, ?_, ?_⟩
  · intro ov hov _
    simp [buildMetadata, prepareMovie, hov]
  · intro t ht _
    simp [buildMetadata, prepareMovie, ht]
  · intro _
    simp [buildMetadata, prepareMovie]

theorem metadata_truncation_c5_witness :
    longMovie.overview = some (List.replicate 1001 'b') ∧
    1000 < (List.replicate 1001 'b').length ∧
    longMovieUnit.metadata.overview = (List.replicate 1001 'b').take 1000 ∧
    longMovieUnit.metadata.title = (List.replicate 1001 'a').take 1000 ∧
    longMovieUnit.metadata.genres = (genresToText longMovie.genres).take 1000 := by
  have h := metadata_truncation_c5 (fun _ => .success []) longMovie longMovieUnit rfl
  have hb : 1000 < (List.replicate 1001 'b').length := by
    rw [List.length_replicate]; omega
  have ha : 1000 < (List.replicate 1001 'a').length := by
    rw [List.length_replicate]; omega
  have hc : 1000 < (genresToText longMovie.genres).length := by
    rw [show genresToText longMovie.genres = List.replicate 1001 'c' from rfl,
      List.length_replicate]
    omega
  exact ⟨rfl, hb, h.1 (List.replicate 1001 'b') rfl hb,
    h.2.1 (List.replicate 1001 'a') rfl ha, h.2.2 hc⟩

/-- C7: an absent and an unparsable checkpoint file both load as `none`
(corrupt is treated the same as absent); the run is not aborted and
ingestion starts from the beginning of the stream, flushing every batch
of the full stream. -/
theorem corrupt_checkpoint_c7 (oracle : Movie → ℕ → AttemptResult)
    (upsertOk : ℕ → Bool) (stream : List Movie) :
    loadCheckpoint .corrupt = loadCheckpoint .absent ∧
    loadCheckpoint .corrupt = none ∧
    reachedRecords .corrupt stream = stream ∧
    (runDriver oracle upsertOk .corrupt stream).batchesFlushed =
      (buildBatches [] stream).length := by
  refine ⟨rfl, rfl, rfl, ?_⟩
  rw [runDriver, runBatches_batchesFlushed]
  simp [loadCheckpoint, resumeSkip]

/-- C9 (amended): appending to a failure log readable as an array
preserves every prior entry in place (the new contents are the old
entries followed by the new one); an absent or unparsable log is treated
as empty, the append proceeding from the empty list; but a log holding
valid JSON that is not an array parses successfully and the append step
outside the `try` raises an uncaught error, aborting the run. -/
theorem failure_log_append_c9 (entries : List FailEntry) (entry : FailEntry) :
    log_failure (.good entries) entry = some (entries ++ [entry]) ∧
    (entries ++ [entry]).take entries.length = entries ∧
    log_failure .unparsable entry = some [entry] ∧
    log_failure .absent entry = some [entry] ∧
    log_failure .parsedNonList entry = none := by
  refine ⟨rfl, ?_, rfl, rfl, rfl⟩
  simp

/-- C9 counterexample to the claim as stated: a failure-log file holding
valid JSON that is not an array is unreadable-as-a-log content on which
the append does not proceed from an empty in-memory list — it aborts the
run (`existing.append` raises outside the `try`) — while genuinely
unparsable content is tolerated. -/
theorem failure_log_append_c9_cex :
    log_failure .parsedNonList sampleEntry = none ∧
    log_failure .unparsable sampleEntry = some [sampleEntry] :=
  ⟨rfl, rfl⟩

/-- C6: a checkpoint save happens only when the upsert committed; for a
committed batch the single saved identifier is that of the last record in
the batch's input buffer; and which identifier is saved does not depend
on the embedding oracle (so record-level embedding failures inside an
otherwise-successful batch do not change it). -/
theorem checkpoint_save_c6 (oracle : Movie → ℕ → AttemptResult) (upsertOk : Bool)
    (batch_items : List Movie) :
    ((process_batch oracle upsertOk batch_items).checkpointSave.isSome = true →
      (process_batch oracle upsertOk batch_items).committed = true ∧ upsertOk = true) ∧
    ((process_batch oracle upsertOk batch_items).committed = true →
      (process_batch oracle upsertOk batch_items).checkpointSave =
        (batch_items.getLast?).map Movie.id) ∧
    (∀ oracle2 : Movie → ℕ → AttemptResult,
      (process_batch oracle upsertOk batch_items).committed = true →
      (process_batch oracle2 upsertOk batch_items).committed = true →
      (process_batch oracle upsertOk batch_items).checkpointSave =
        (process_batch oracle2 upsertOk batch_items).checkpointSave) := by
  refine ⟨?_, ?_, ?_⟩
  · intro hs
    cases hcom : (process_batch oracle upsertOk batch_items).committed with
    | false =>
      rw [process_batch_save_of_not_committed oracle upsertOk batch_items hcom] at hs
      simp at hs
    | true =>
      exact ⟨rfl, ((process_batch_committed_iff oracle upsertOk batch_items).mp hcom).1⟩
  · intro hcom
    exact process_batch_save_of_committed oracle upsertOk batch_items hcom
  · intro oracle2 h1 h2
    rw [process_batch_save_of_committed oracle upsertOk batch_items h1,
      process_batch_save_of_committed oracle2 upsertOk batch_items h2]

theorem checkpoint_save_c6_witness :
    (process_batch (fun _ _ => .success []) true [mkMovie idA, mkMovie idB]).committed = true ∧
    (process_batch (fun _ _ => .success []) true [mkMovie idA, mkMovie idB]).checkpointSave =
      ([mkMovie idA, mkMovie idB].getLast?).map Movie.id := by
  have hcom : (process_batch (fun _ _ => .success []) true
      [mkMovie idA, mkMovie idB]).committed = true := by decide
  exact ⟨hcom,
    (checkpoint_save_c6 (fun _ _ => .success []) true [mkMovie idA, mkMovie idB]).2.1 hcom⟩

/-- C8: when the upsert commit of a batch fails, no checkpoint is saved
for it, the failure-log entries it writes are exactly the ones a
successful commit would have written (so the committed-side records are
not added to the Failure Log), and the run still flushes every batch of
the stream rather than aborting. -/
theorem upsert_failure_isolation_c8 (oracle : Movie → ℕ → AttemptResult)
    (batch_items : List Movie) (upsertOk : ℕ → Bool) (ckpt : CheckpointFile)
    (stream : List Movie) :
    (process_batch oracle false batch_items).checkpointSave = none ∧
    (process_batch oracle false batch_items).failures =
      (process_batch oracle true batch_items).failures ∧
    (runDriver oracle upsertOk ckpt stream).batchesFlushed =
      (buildBatches [] (reachedRecords ckpt stream)).length := by
  refine ⟨?_, ?_, ?_⟩
  · cases h : (batchVectors oracle batch_items).isEmpty <;>
      simp [process_batch, h]
  · rw [process_batch_failures, process_batch_failures]
  · rw [runDriver, runBatches_batchesFlushed]
    simp [reachedRecords]

/-- C10: even when the upsert commit fails, `process_batch` returns the
number of successfully embedded vectors as its success count; with every
commit failing, the run's reported `processed_count` is the total number
of embedded records while nothing at all is committed to the index. -/
theorem uncommitted_counted_c10 (oracle : Movie → ℕ → AttemptResult)
    (batch_items : List Movie) (ckpt : CheckpointFile) (stream : List Movie) :
    (process_batch oracle false batch_items).succeeded =
      (batchVectors oracle batch_items).length ∧
    (runDriver oracle (fun _ => false) ckpt stream).processed_count =
      ((buildBatches [] (reachedRecords ckpt stream)).map
        (fun b => (batchVectors oracle b).length)).sum ∧
    (runDriver oracle (fun _ => false) ckpt stream).committedBatches = [] := by
  refine ⟨process_batch_succeeded oracle false batch_items, ?_, ?_⟩
  · rw [runDriver, runBatches_processed]
    simp [reachedRecords]
  · rw [runDriver, runBatches_committed_allFalse]

theorem skipLoop_spec (c : String) :
    ∀ (p : List Movie) (m : Movie) (s : List Movie), m.id = c →
      (∀ x ∈ p, x.id ≠ c) → skipLoop c (p ++ m :: s) = s := by
  intro p
  induction p with
  | nil =>
    intro m s hm _
    simp [skipLoop, hm]
  | cons x p ih =>
    intro m s hm hp
    have hx : ¬ x.id = c := hp x (by simp)
    simp only [List.cons_append, skipLoop, hx, if_false]
    exact ih m s hm (fun y hy => hp y (by simp [hy]))

/-- C2 (amended): with a checkpoint equal to the non-empty identifier of
some record of a stream with pairwise-distinct identifiers, the resume
skip yields exactly the records strictly after that record, in original
order, with none repeated and none skipped; no surviving record (in
particular not the matching one) carries the checkpointed identifier.
(An empty-string checkpoint identifier is falsy in Python, so it never
enables skip mode and the whole stream is processed instead.) -/
theorem resume_skip_c2 (c : String) (p s : List Movie) (m : Movie)
    (hc : c.isEmpty = false) (hm : m.id = c)
    (hnd : ((p ++ m :: s).map Movie.id).Nodup) :
    reachedRecords (.parsed (some c)) (p ++ m :: s) = s ∧
    ∀ x ∈ s, x.id ≠ c := by
  rw [List.map_append, List.map_cons, List.nodup_append] at hnd
  obtain ⟨_, hnd2, hdisj⟩ := hnd
  have hp : ∀ x ∈ p, x.id ≠ c := by
    intro x hx heq
    exact hdisj (List.mem_map_of_mem Movie.id hx) (by simp [heq, hm.symm])
  have hs : ∀ x ∈ s, x.id ≠ c := by
    intro x hx heq
    have hmem : m.id ∈ s.map Movie.id := by
      rw [hm, ← heq]
      exact List.mem_map_of_mem Movie.id hx
    exact (List.nodup_cons.mp hnd2).1 hmem
  have hred : reachedRecords (.parsed (some c)) (p ++ m :: s) =
      skipLoop c (p ++ m :: s) := by
    simp [reachedRecords, loadCheckpoint, resumeSkip, hc]
  rw [hred]
  exact ⟨skipLoop_spec c p m s hm hp, hs⟩

theorem resume_skip_c2_witness :
    reachedRecords (.parsed (some idB)) [mkMovie idA, mkMovie idB, mkMovie idC] =
      [mkMovie idC] :=
  (resume_skip_c2 idB [mkMovie idA] [mkMovie idC] (mkMovie idB) (by decide) rfl
    (by decide)).1

/-- C2 counterexample to the claim as stated: a record can carry the
empty-string identifier and the checkpoint can equal it (the program's
own `save_checkpoint` would produce exactly that file), but the loaded
value is falsy, `skip_mode` is never enabled, and the run processes the
entire stream — not the records strictly after the matching record — and
reprocesses the matching record itself. -/
theorem resume_skip_c2_cex :
    (mkMovie emptyId).id = emptyId ∧
    reachedRecords (.parsed (some emptyId)) [mkMovie emptyId] = [mkMovie emptyId] ∧
    (mkMovie emptyId) ∈ reachedRecords (.parsed (some emptyId)) [mkMovie emptyId] := by
  refine ⟨rfl, ?_, ?_⟩ <;> decide

-- ------------------------------------------------------------------
-- Counting lemmas for the no-silent-loss invariant
-- ------------------------------------------------------------------

theorem batchVectors_countP (oracle : Movie → ℕ → AttemptResult) (c : String) :
    ∀ b : List Movie,
      (batchVectors oracle b).countP (fun u => decide (u.id = c)) =
        b.countP (fun x => decide (x.id = c) && (embedOutcome oracle x).isSome) := by
  intro b
  induction b with
  | nil => rfl
  | cons m b ih =>
    cases h : embedOutcome oracle m with
    | none =>
      simp only [batchVectors, List.filterMap_cons, h] at ih ⊢
      rw [List.countP_cons_of_neg _ _ (by simp [h])]
      exact ih
    | some u =>
      have hid : u.id = m.id := (embedOutcome_spec oracle m u h).1
      simp only [batchVectors, List.filterMap_cons, h] at ih ⊢
      rw [List.countP_cons, List.countP_cons, ih, hid]
      simp [h]

theorem batchFailures_countP (oracle : Movie → ℕ → AttemptResult) (c : String) :
    ∀ b : List Movie,
      (batchFailures oracle b).countP (fun e => decide (e.id = c)) =
        b.countP (fun x => decide (x.id = c) && (embedOutcome oracle x).isNone) := by
  intro b
  induction b with
  | nil => rfl
  | cons m b ih =>
    cases h : embedOutcome oracle m with
    | none =>
      simp only [batchFailures, List.filterMap_cons, h] at ih ⊢
      rw [List.countP_cons, List.countP_cons, ih]
      simp [failEntryFor, h]
    | some u =>
      simp only [batchFailures, List.filterMap_cons, h] at ih ⊢
      rw [List.countP_cons_of_neg _ _ (by simp [h])]
      exact ih

theorem countP_embed_split (oracle : Movie → ℕ → AttemptResult) (c : String) :
    ∀ l : List Movie,
      l.countP (fun x => decide (x.id = c) && (embedOutcome oracle x).isSome) +
        l.countP (fun x => decide (x.id = c) && (embedOutcome oracle x).isNone) =
        l.countP (fun x => decide (x.id = c)) := by
  intro l
  induction l with
  | nil => rfl
  | cons m l ih =>
    rw [List.countP_cons, List.countP_cons, List.countP_cons]
    cases h : embedOutcome oracle m <;> by_cases hc : m.id = c <;>
      simp [h, hc] <;> omega

theorem flatten_committed_filterMap (oracle : Movie → ℕ → AttemptResult) :
    ∀ bs : List (List Movie),
      (bs.filterMap (fun b =>
        if (batchVectors oracle b).isEmpty then none
        else some (batchVectors oracle b))).flatten =
      (bs.map (batchVectors oracle)).flatten := by
  intro bs
  induction bs with
  | nil => rfl
  | cons b bs ih =>
    by_cases h' : batchVectors oracle b = []
    · have heq : (if (batchVectors oracle b).isEmpty then none
          else some (batchVectors oracle b)) = none := by simp [h']
      rw [@List.filterMap_cons_none (List Movie) (List UpsertUnit)
          (fun b => if (batchVectors oracle b).isEmpty then none
            else some (batchVectors oracle b)) b bs heq,
        ih, List.map_cons, List.flatten_cons, h', List.nil_append]
    · have heq : (if (batchVectors oracle b).isEmpty then none
          else some (batchVectors oracle b)) = some (batchVectors oracle b) := by
        simp [h']
      rw [@List.filterMap_cons_some (List Movie) (List UpsertUnit)
          (fun b => if (batchVectors oracle b).isEmpty then none
            else some (batchVectors oracle b)) b bs (batchVectors oracle b) heq,
        List.flatten_cons, List.map_cons, List.flatten_cons, ih]

theorem countP_flatten_vectors (oracle : Movie → ℕ → AttemptResult) (c : String) :
    ∀ bs : List (List Movie),
      ((bs.map (batchVectors oracle)).flatten).countP (fun u => decide (u.id = c)) =
        (bs.flatten).countP
          (fun x => decide (x.id = c) && (embedOutcome oracle x).isSome) := by
  intro bs
  induction bs with
  | nil => rfl
  | cons b bs ih =>
    simp only [List.map_cons, List.flatten_cons, List.countP_append]
    rw [batchVectors_countP, ih]

theorem countP_flatten_failures (oracle : Movie → ℕ → AttemptResult) (c : String) :
    ∀ bs : List (List Movie),
      ((bs.map (batchFailures oracle)).flatten).countP (fun e => decide (e.id = c)) =
        (bs.flatten).countP
          (fun x => decide (x.id = c) && (embedOutcome oracle x).isNone) := by
  intro bs
  induction bs with
  | nil => rfl
  | cons b bs ih =>
    simp only [List.map_cons, List.flatten_cons, List.countP_append]
    rw [batchFailures_countP, ih]

theorem countP_decide_eq_one {α : Type _} [DecidableEq α] (c : α) :
    ∀ l : List α, l.Nodup → c ∈ l →
      l.countP (fun s => decide (s = c)) = 1 := by
  intro l
  induction l with
  | nil => intro _ h; simp at h
  | cons a l ih =>
    intro hnd hc
    rcases List.mem_cons.mp hc with rfl | hc
    · rw [List.countP_cons_of_pos _ _ (by simp)]
      have hzero : l.countP (fun s => decide (s = c)) = 0 := by
        rw [List.countP_eq_zero]
        intro x hx
        simp only [decide_eq_true_eq]
        rintro rfl
        exact (List.nodup_cons.mp hnd).1 hx
      omega
    · have hne : ¬ a = c := by
        rintro rfl
        exact (List.nodup_cons.mp hnd).1 hc
      rw [List.countP_cons_of_neg _ _ (by simp [hne])]
      exact ih (List.nodup_cons.mp hnd).2 hc

theorem countP_movieId_eq_one (c : String) (l : List Movie)
    (hnd : (l.map Movie.id).Nodup) (m : Movie) (hm : m ∈ l) (hc : m.id = c) :
    l.countP (fun x => decide (x.id = c)) = 1 := by
  have h1 : l.countP (fun x => decide (x.id = c)) =
      (l.map Movie.id).countP (fun s => decide (s = c)) := by
    rw [List.countP_map]
    rfl
  rw [h1]
  exact countP_decide_eq_one c (l.map Movie.id) hnd (hc ▸ List.mem_map_of_mem Movie.id hm)

/-- C1 (amended): assuming every attempted upsert commit succeeds, each
record that reaches the batch coordinator after resume-skip (with
pairwise-distinct identifiers) appears, by identifier, exactly once in
total across the committed upsert batches and this run's failure-log
entries — exactly one of the two, never neither and never both. -/
theorem no_silent_loss_c1 (oracle : Movie → ℕ → AttemptResult)
    (ckpt : CheckpointFile) (stream : List Movie) (m : Movie)
    (hm : m ∈ reachedRecords ckpt stream)
    (hnd : ((reachedRecords ckpt stream).map Movie.id).Nodup) :
    ((runDriver oracle (fun _ => true) ckpt stream).committedBatches.flatten.countP
        (fun u => decide (u.id = m.id))) +
      ((runDriver oracle (fun _ => true) ckpt stream).failLog.countP
        (fun e => decide (e.id = m.id))) = 1 := by
  have hcomm : (runDriver oracle (fun _ => true) ckpt stream).committedBatches =
      (buildBatches [] (reachedRecords ckpt stream)).filterMap (fun b =>
        if (batchVectors oracle b).isEmpty then none
        else some (batchVectors oracle b)) := by
    rw [runDriver, runBatches_committed_allTrue]
    rfl
  have hlog : (runDriver oracle (fun _ => true) ckpt stream).failLog =
      ((buildBatches [] (reachedRecords ckpt stream)).map (batchFailures oracle)).flatten := by
    rw [runDriver, runBatches_failLog]
    rfl
  have hflat : (buildBatches [] (reachedRecords ckpt stream)).flatten =
      reachedRecords ckpt stream := by
    simpa using buildBatches_flatten (reachedRecords ckpt stream) []
  rw [hcomm, hlog, flatten_committed_filterMap, countP_flatten_vectors,
    countP_flatten_failures, hflat, countP_embed_split]
  exact countP_movieId_eq_one m.id (reachedRecords ckpt stream) hnd m hm rfl

theorem no_silent_loss_c1_witness :
    ((runDriver (fun _ _ => .rateLimitError) (fun _ => true) .absent
        [mkMovie idA]).committedBatches.flatten.countP
        (fun u => decide (u.id = (mkMovie idA).id))) +
      ((runDriver (fun _ _ => .rateLimitError) (fun _ => true) .absent
        [mkMovie idA]).failLog.countP
        (fun e => decide (e.id = (mkMovie idA).id))) = 1 :=
  no_silent_loss_c1 (fun _ _ => .rateLimitError) .absent [mkMovie idA] (mkMovie idA)
    (by decide) (by decide)

/-- C1 counterexample to the claim as stated: a record whose embedding
succeeds but whose batch's upsert commit fails reaches the coordinator
yet, after the run, appears in no committed upsert batch and in no
failure-log entry — it is in neither. -/
theorem no_silent_loss_c1_cex :
    (mkMovie idA) ∈ reachedRecords .absent [mkMovie idA] ∧
    (runDriver (fun _ _ => .success []) (fun _ => false) .absent
      [mkMovie idA]).committedBatches = [] ∧
    (runDriver (fun _ _ => .success []) (fun _ => false) .absent
      [mkMovie idA]).failLog = [] := by
  refine ⟨by decide, ?_, ?_⟩ <;> decide

end ResumeIngestion
